import Mathlib

/-!
Verification of the performance-capture tool (`tools/performance_capture.py`).

Lines are modelled as `List Char`.  The regex searches of the source are
modelled by deterministic maximal-munch matchers tried at every start
position, leftmost first: for each of the three patterns in the source
(`\((\d+\.?\d*)\s*MIPS\)`, the cycle-breakdown pattern and the bandwidth
pattern), every character class boundary is disjoint from the literal that
follows it, so greedy matching without backtracking computes exactly the
match the backtracking engine finds.  The character classes `\d` and `\s`
are modelled at their ASCII core, and Python's float arithmetic is
idealised as exact rational arithmetic; none of the verified claims depend
on non-ASCII digits or on binary floating-point rounding.
-/

abbrev Line := List Char

/-- Python `\s` (ASCII range): space, tab, newline, carriage return,
vertical tab, form feed. -/
def isPySpace (c : Char) : Bool :=
  c = ' ' || c = '\t' || c = '\n' || c = '\r' || c = '\x0b' || c = '\x0c'

/-- ASCII lowercasing, modelling Python's `str.lower` on the ASCII letters
(the only characters relevant to the fixed markers searched for). -/
def asciiLower (c : Char) : Char :=
  if 'A' ≤ c && c ≤ 'Z' then Char.ofNat (c.toNat + 32) else c

/-- `isPre p s` holds when `p` is a leading segment of `s` (Boolean). -/
def isPre : List Char → List Char → Bool
  | [], _ => true
  | _ :: _, [] => false
  | a :: as, b :: bs => a = b && isPre as bs

/-- Python substring containment (`needle in haystack`). -/
def containsSub (needle : List Char) : List Char → Bool
  | [] => needle.isEmpty
  | c :: cs => isPre needle (c :: cs) || containsSub needle cs

/-- Value of a digit string, as Python `int` computes it. -/
def digitsToNat (ds : List Char) : ℕ :=
  ds.foldl (fun n c => 10 * n + (c.toNat - 48)) 0

/-- Exact value of the decimal literal with integer digits `ip` and
fractional digits `fp`. -/
def decToRat (ip fp : List Char) : ℚ :=
  (digitsToNat ip : ℚ) + (digitsToNat fp : ℚ) / (10 : ℚ) ^ fp.length

lemma takeWhile_all (p : α → Bool) (l : List α) :
    (l.takeWhile p).all p = true := by
  induction l with
  | nil => rfl
  | cons a as ih =>
    by_cases h : p a = true
    · simp [List.takeWhile, h, ih]
    · simp [List.takeWhile, h]

lemma takeWhile_append_all (p : α → Bool) (l₁ l₂ : List α)
    (h : l₁.all p = true) :
    (l₁ ++ l₂).takeWhile p = l₁ ++ l₂.takeWhile p := by
  induction l₁ with
  | nil => rfl
  | cons a as ih =>
    simp only [List.all_cons, Bool.and_eq_true] at h
    simp [List.takeWhile, h.1, ih h.2]

lemma dropWhile_append_all (p : α → Bool) (l₁ l₂ : List α)
    (h : l₁.all p = true) :
    (l₁ ++ l₂).dropWhile p = l₂.dropWhile p := by
  induction l₁ with
  | nil => rfl
  | cons a as ih =>
    simp only [List.all_cons, Bool.and_eq_true] at h
    simp [List.dropWhile, h.1, ih h.2]

lemma isPre_iff (p s : List Char) : isPre p s = true ↔ ∃ t, s = p ++ t := by
  induction p generalizing s with
  | nil => simp [isPre]
  | cons a as ih =>
    cases s with
    | nil =>
      simp only [isPre]
      constructor
      · intro h; cases h
      · rintro ⟨t, ht⟩; cases ht
    | cons b bs =>
      simp only [isPre, Bool.and_eq_true, decide_eq_true_eq, ih]
      constructor
      · rintro ⟨rfl, t, rfl⟩; exact ⟨t, rfl⟩
      · rintro ⟨t, ht⟩
        injection ht with h1 h2
        exact ⟨h1.symm, t, h2⟩

/-- A nonempty all-digit capture group (`\d+`). -/
def Digits := {g : List Char // g ≠ [] ∧ g.all Char.isDigit = true}

/-- A possibly empty all-digit capture fragment (`\d*`). -/
def DigitStr := {g : List Char // g.all Char.isDigit = true}

/-- Match `\d+` at the head of `s`, returning the captured digits and the
rest of the input. -/
def num1 (s : List Char) : Option (Digits × List Char) :=
  if h : s.takeWhile Char.isDigit = [] then none
  else some (⟨s.takeWhile Char.isDigit, h, takeWhile_all _ s⟩,
             s.dropWhile Char.isDigit)

/-- Match the literal `pat` at the head of `s`. -/
def litP (pat s : List Char) : Option (List Char) :=
  if isPre pat s then some (s.drop pat.length) else none

/-- Try the position matcher `p` at every start position, leftmost first
(Python `re.search`). -/
def searchO {α : Type} (p : List Char → Option α) : List Char → Option α
  | [] => p []
  | c :: cs =>
    match p (c :: cs) with
    | some r => some r
    | none => searchO p cs

/-- The capture group of the MIPS pattern `\((\d+\.?\d*)\s*MIPS\)`:
integer digits, whether a decimal point was present, and the fractional
digits. -/
structure MipsGroup where
  ip : Digits
  dot : Bool
  fp : DigitStr

/-- Raw text of the captured group (`\d+\.?\d*`). -/
def MipsGroup.raw (g : MipsGroup) : List Char :=
  g.ip.val ++ (if g.dot then '.' :: g.fp.val else [])

def mipsTail : List Char := "MIPS)".toList

/-- Match `\((\d+\.?\d*)\s*MIPS\)` at the head of the input. -/
def matchMipsAt (s : List Char) : Option MipsGroup :=
  match s with
  | [] => none
  | c :: rest =>
    if c = '(' then
      if h1 : rest.takeWhile Char.isDigit = [] then none
      else
        let ip : Digits := ⟨rest.takeWhile Char.isDigit, h1, takeWhile_all _ rest⟩
        let r1 := rest.dropWhile Char.isDigit
        if r1.head? = some '.' then
          if isPre mipsTail ((r1.tail.dropWhile Char.isDigit).dropWhile isPySpace) then
            some ⟨ip, true, ⟨r1.tail.takeWhile Char.isDigit, takeWhile_all _ r1.tail⟩⟩
          else none
        else
          if isPre mipsTail (r1.dropWhile isPySpace) then
            some ⟨ip, false, ⟨[], rfl⟩⟩
          else none
    else none

/-- Parse a decimal literal of the shape produced by the group
`\d+\.?\d*` (`none` on any other input), exactly: the restriction of
Python `float` to these inputs, idealised over `ℚ`. -/
def pyFloatParse (g : List Char) : Option ℚ :=
  let d1 := g.takeWhile Char.isDigit
  let r := g.dropWhile Char.isDigit
  if d1.isEmpty then none
  else if r.isEmpty then some (decToRat d1 [])
  else if r.head? = some '.' && r.tail.all Char.isDigit then
    some (decToRat d1 r.tail)
  else none

def pyFloatVal (g : List Char) : ℚ := (pyFloatParse g).getD 0

/-- `float(text)`, with a `ValueError` modelled as `Except.error`. -/
def pyFloatE (g : List Char) : Except String ℚ :=
  match pyFloatParse g with
  | some v => .ok v
  | none => .error "ValueError"

/-- `int(text)`, with a `ValueError` modelled as `Except.error`. -/
def pyIntE (g : List Char) : Except String ℕ :=
  if !g.isEmpty && g.all Char.isDigit then .ok (digitsToNat g)
  else .error "ValueError"

/-- `parse_ips_line`: search the MIPS pattern in the line and convert the
captured group with `float`. -/
def parse_ips_line (line : Line) : Option ℚ :=
  (searchO matchMipsAt line).map (fun g => pyFloatVal g.raw)

/-- `parse_ips_line` with the `float` conversion's possible `ValueError`
threaded explicitly. -/
def parse_ips_lineE (line : Line) : Except String (Option ℚ) :=
  match searchO matchMipsAt line with
  | none => .ok none
  | some g => (pyFloatE g.raw).map some

/-- Result of one profiler block: the sparse metrics dictionary built by
`parse_profiler_block`; each group of keys is written together, exactly as
in the source. -/
structure BlockMetrics where
  fetch_cycles : Option ℕ := none
  fetch_pct : Option ℕ := none
  exec_cycles : Option ℕ := none
  exec_pct : Option ℕ := none
  total_cycles : Option ℕ := none
  psram_read_kbps : Option ℕ := none
  psram_write_kbps : Option ℕ := none
  psram_total_kbps : Option ℕ := none
  bottleneck : Option String := none
deriving DecidableEq, Repr

/-- Python truthiness of the metrics dict: the dict is empty exactly when
no key was ever written. -/
def BlockMetrics.isEmpty (m : BlockMetrics) : Bool :=
  m.fetch_cycles.isNone && m.fetch_pct.isNone && m.exec_cycles.isNone &&
  m.exec_pct.isNone && m.total_cycles.isNone && m.psram_read_kbps.isNone &&
  m.psram_write_kbps.isNone && m.psram_total_kbps.isNone && m.bottleneck.isNone

/-- Match the cycle-breakdown pattern
`Cycles/instr:\s*fetch=(\d+)\s*\((\d+)%\)\s*exec=(\d+)\s*\((\d+)%\)\s*total=(\d+)`
at the head of the input, returning the five capture groups. -/
def matchCyclesAt (s : List Char) : Option (Digits × Digits × Digits × Digits × Digits) := do
  let s ← litP "Cycles/instr:".toList s
  let s := s.dropWhile isPySpace
  let s ← litP "fetch=".toList s
  let (g1, s) ← num1 s
  let s := s.dropWhile isPySpace
  let s ← litP "(".toList s
  let (g2, s) ← num1 s
  let s ← litP "%)".toList s
  let s := s.dropWhile isPySpace
  let s ← litP "exec=".toList s
  let (g3, s) ← num1 s
  let s := s.dropWhile isPySpace
  let s ← litP "(".toList s
  let (g4, s) ← num1 s
  let s ← litP "%)".toList s
  let s := s.dropWhile isPySpace
  let s ← litP "total=".toList s
  let (g5, _) ← num1 s
  pure (g1, g2, g3, g4, g5)

/-- Match the bandwidth pattern
`PSRAM bandwidth:\s*read=(\d+)KB/s\s*write=(\d+)KB/s\s*total=(\d+)KB/s`
at the head of the input, returning the three capture groups. -/
def matchBWAt (s : List Char) : Option (Digits × Digits × Digits) := do
  let s ← litP "PSRAM bandwidth:".toList s
  let s := s.dropWhile isPySpace
  let s ← litP "read=".toList s
  let (g1, s) ← num1 s
  let s ← litP "KB/s".toList s
  let s := s.dropWhile isPySpace
  let s ← litP "write=".toList s
  let (g2, s) ← num1 s
  let s ← litP "KB/s".toList s
  let s := s.dropWhile isPySpace
  let s ← litP "total=".toList s
  let (g3, s) ← num1 s
  let _ ← litP "KB/s".toList s
  pure (g1, g2, g3)

/-- Cycle-breakdown search on a whole line. -/
def cyclesOf (line : Line) : Option (Digits × Digits × Digits × Digits × Digits) :=
  searchO matchCyclesAt line

/-- Bandwidth search on a whole line. -/
def bwOf (line : Line) : Option (Digits × Digits × Digits) :=
  searchO matchBWAt line

/-- The bottleneck tag of a line: the `BOTTLENECK: CPU` test first, else
the `BOTTLENECK: PSRAM` test, as in the source's if/elif. -/
def tagOf (line : Line) : Option String :=
  if containsSub "BOTTLENECK: CPU".toList line then some "CPU"
  else if containsSub "BOTTLENECK: PSRAM".toList line then some "PSRAM"
  else none

/-- One iteration of `parse_profiler_block`'s loop body. -/
def stepProfilerLine (m : BlockMetrics) (line : Line) : BlockMetrics :=
  let m1 :=
    match cyclesOf line with
    | some (g1, g2, g3, g4, g5) =>
      { m with fetch_cycles := some (digitsToNat g1.val),
               fetch_pct := some (digitsToNat g2.val),
               exec_cycles := some (digitsToNat g3.val),
               exec_pct := some (digitsToNat g4.val),
               total_cycles := some (digitsToNat g5.val) }
    | none => m
  let m2 :=
    match bwOf line with
    | some (h1, h2, h3) =>
      { m1 with psram_read_kbps := some (digitsToNat h1.val),
                psram_write_kbps := some (digitsToNat h2.val),
                psram_total_kbps := some (digitsToNat h3.val) }
    | none => m1
  match tagOf line with
  | some t => { m2 with bottleneck := some t }
  | none => m2

/-- `parse_profiler_block`. -/
def parse_profiler_block (lines : List Line) : BlockMetrics :=
  lines.foldl stepProfilerLine {}

/-- One iteration of `parse_profiler_block`'s loop body with the `int`
conversions' possible `ValueError` threaded explicitly. -/
def stepProfilerLineE (m : BlockMetrics) (line : Line) : Except String BlockMetrics := do
  let m1 ←
    match cyclesOf line with
    | some (g1, g2, g3, g4, g5) => do
      let v1 ← pyIntE g1.val
      let v2 ← pyIntE g2.val
      let v3 ← pyIntE g3.val
      let v4 ← pyIntE g4.val
      let v5 ← pyIntE g5.val
      pure { m with fetch_cycles := some v1, fetch_pct := some v2,
                    exec_cycles := some v3, exec_pct := some v4,
                    total_cycles := some v5 }
    | none => pure m
  let m2 ←
    match bwOf line with
    | some (h1, h2, h3) => do
      let w1 ← pyIntE h1.val
      let w2 ← pyIntE h2.val
      let w3 ← pyIntE h3.val
      pure { m1 with psram_read_kbps := some w1, psram_write_kbps := some w2,
                     psram_total_kbps := some w3 }
    | none => pure m1
  match tagOf line with
  | some t => pure { m2 with bottleneck := some t }
  | none => pure m2

/-- `parse_profiler_block` with conversion errors threaded explicitly. -/
def parse_profiler_blockE (lines : List Line) : Except String BlockMetrics :=
  lines.foldlM stepProfilerLineE {}

def startSentinel : List Char :=
  List.replicate 10 '=' ++ " CPU PROFILER ".toList ++ List.replicate 10 '='

def endSentinel : List Char := List.replicate 34 '='

/-- Loop state of `extract_metrics`. -/
structure ExtractState where
  mips_values : List ℚ
  profiler_blocks : List BlockMetrics
  current_block : List Line
  in_profiler_block : Bool
deriving DecidableEq, Repr

/-- One iteration of the `extract_metrics` loop. -/
def extractStep (st : ExtractState) (line : Line) : ExtractState :=
  let st :=
    match parse_ips_line line with
    | some v => { st with mips_values := st.mips_values ++ [v] }
    | none => st
  if containsSub startSentinel line then
    { st with in_profiler_block := true, current_block := [] }
  else if containsSub endSentinel line && st.in_profiler_block then
    let metrics := parse_profiler_block st.current_block
    { st with in_profiler_block := false,
              profiler_blocks :=
                if metrics.isEmpty then st.profiler_blocks
                else st.profiler_blocks ++ [metrics] }
  else if st.in_profiler_block then
    { st with current_block := st.current_block ++ [line] }
  else st

/-- Result record of `extract_metrics`. -/
structure Metrics where
  mips_values : List ℚ
  profiler_blocks : List BlockMetrics
  wifi_connected : Bool
  wifi_error : Bool
deriving DecidableEq, Repr

/-- `extract_metrics`. -/
def extract_metrics (lines : List Line) : Metrics :=
  let st := lines.foldl extractStep ⟨[], [], [], false⟩
  { mips_values := st.mips_values,
    profiler_blocks := st.profiler_blocks,
    wifi_connected := lines.any (fun l => containsSub "WiFi connected".toList l),
    wifi_error := lines.any (fun l => containsSub "assert failed".toList (l.map asciiLower)) }

/-- One iteration of the `extract_metrics` loop with conversion errors
threaded explicitly. -/
def extractStepE (st : ExtractState) (line : Line) : Except String ExtractState := do
  let r ← parse_ips_lineE line
  let st :=
    match r with
    | some v => { st with mips_values := st.mips_values ++ [v] }
    | none => st
  if containsSub startSentinel line then
    pure { st with in_profiler_block := true, current_block := [] }
  else if containsSub endSentinel line && st.in_profiler_block then do
    let metrics ← parse_profiler_blockE st.current_block
    pure { st with in_profiler_block := false,
                   profiler_blocks :=
                     if metrics.isEmpty then st.profiler_blocks
                     else st.profiler_blocks ++ [metrics] }
  else if st.in_profiler_block then
    pure { st with current_block := st.current_block ++ [line] }
  else
    pure st

/-- `extract_metrics` with conversion errors threaded explicitly. -/
def extract_metricsE (lines : List Line) : Except String Metrics := do
  let st ← lines.foldlM extractStepE ⟨[], [], [], false⟩
  pure { mips_values := st.mips_values,
         profiler_blocks := st.profiler_blocks,
         wifi_connected := lines.any (fun l => containsSub "WiFi connected".toList l),
         wifi_error := lines.any (fun l => containsSub "assert failed".toList (l.map asciiLower)) }

/-- `statistics.mean`, exactly over `ℚ`. -/
def listMean (l : List ℚ) : ℚ := l.sum / l.length

/-- The square of `statistics.stdev` (the sample variance); the summary
only ever tests this statistic for presence, and `stdev` is defined
exactly when the variance is, so the spread statistic is carried as the
variance to stay inside `ℚ`. -/
def sampleVariance (l : List ℚ) : ℚ :=
  (l.map (fun x => (x - listMean l) ^ 2)).sum / ((l.length : ℚ) - 1)

/-- The sparse summary dictionary of `calculate_summary`. -/
structure Summary where
  wifi_status : String
  mips_avg : Option ℚ := none
  mips_min : Option ℚ := none
  mips_max : Option ℚ := none
  mips_stdev : Option ℚ := none
  mips_count : Option ℕ := none
  cycles_avg : Option ℚ := none
  exec_pct_avg : Option ℚ := none
  psram_bw_avg : Option ℚ := none
  bottleneck : Option String := none
  profiler_count : Option ℕ := none
deriving DecidableEq, Repr

/-- Iteration order of Python's `set(bottlenecks)`: an arbitrary but
stable enumeration of the distinct elements; modelled as first-occurrence
order. -/
def firstDedup (l : List String) : List String :=
  l.foldl (fun acc x => if x ∈ acc then acc else acc ++ [x]) []

/-- Python `max(..., key=...)` over a nonempty list given as head and
tail: keeps the earliest element whose key is maximal (a later element
replaces the current best only when its key is strictly greater). -/
def pyFold (key : String → ℕ) (x : String) (xs : List String) : String :=
  xs.foldl (fun best y => if key best < key y then y else best) x

/-- `max(set(l), key=l.count)`. -/
def pyMaxByCount (l : List String) : Option String :=
  match firstDedup l with
  | [] => none
  | x :: xs => some (pyFold (fun t => l.count t) x xs)

/-- The MIPS section of `calculate_summary` (guarded by
`if metrics['mips_values']:`). -/
def summaryWithMips (s : Summary) (vals : List ℚ) : Summary :=
  match vals with
  | [] => s
  | x :: xs =>
    { s with mips_avg := some (listMean (x :: xs)),
             mips_min := some (xs.foldl min x),
             mips_max := some (xs.foldl max x),
             mips_stdev := if 1 < (x :: xs).length then some (sampleVariance (x :: xs)) else none,
             mips_count := some (x :: xs).length }

/-- Mean of a numeric block field across blocks (`mean([b[k] for b in blocks])`,
evaluated only under the guard that every block has the field). -/
def fieldMean (blocks : List BlockMetrics) (f : BlockMetrics → Option ℕ) : ℚ :=
  listMean (blocks.map (fun b => (((f b).getD 0 : ℕ) : ℚ)))

/-- First guarded update of the profiler section: the cycles average,
written only when every block has `total_cycles`. -/
def sumCycles (s : Summary) (blocks : List BlockMetrics) : Summary :=
  if blocks.all (fun b => b.total_cycles.isSome) then
    { s with cycles_avg := some (fieldMean blocks (fun b => b.total_cycles)) }
  else s

/-- Second guarded update: the exec-percentage average. -/
def sumExec (s : Summary) (blocks : List BlockMetrics) : Summary :=
  if blocks.all (fun b => b.exec_pct.isSome) then
    { s with exec_pct_avg := some (fieldMean blocks (fun b => b.exec_pct)) }
  else s

/-- Third guarded update: the PSRAM-bandwidth average. -/
def sumBW (s : Summary) (blocks : List BlockMetrics) : Summary :=
  if blocks.all (fun b => b.psram_total_kbps.isSome) then
    { s with psram_bw_avg := some (fieldMean blocks (fun b => b.psram_total_kbps)) }
  else s

/-- The profiler section of `calculate_summary` (guarded by
`if metrics['profiler_blocks']:`): the three guarded field averages, then
the bottleneck majority vote and the block count. -/
def summaryWithBlocks (s : Summary) (blocks : List BlockMetrics) : Summary :=
  match blocks with
  | [] => s
  | b :: bs =>
    { sumBW (sumExec (sumCycles s (b :: bs)) (b :: bs)) (b :: bs) with
      bottleneck := pyMaxByCount ((b :: bs).map (fun b => b.bottleneck.getD "Unknown")),
      profiler_count := some (b :: bs).length }

/-- `calculate_summary`. -/
def calculate_summary (m : Metrics) : Summary :=
  summaryWithBlocks
    (summaryWithMips
      { wifi_status :=
          if m.wifi_error then "ERROR"
          else if m.wifi_connected then "Connected"
          else "Unknown" }
      m.mips_values)
    m.profiler_blocks

/-- Fixed header written by `append_to_tracking_doc` when the tracking
document does not exist, as its list of lines. -/
def headerLines : List String :=
  [ "# BasiliskII ESP32-P4 Performance Tracking",
    "",
    "This document tracks performance measurements over time.",
    "",
    "## Measurements",
    "",
    "| Date | Label | MIPS (avg) | MIPS (range) | Cycles/instr | Exec % | PSRAM BW | Bottleneck | WiFi |",
    "|------|-------|------------|--------------|--------------|--------|----------|------------|------|" ]

def natPad2 (n : ℕ) : String := if n < 10 then "0" ++ toString n else toString n

/-- Rendering of a rational with two decimal places (the `:.2f` format,
with the float idealised as the exact rational). -/
def fmt2 (q : ℚ) : String :=
  let n := round (q * 100)
  toString (n / 100) ++ "." ++ natPad2 (n % 100).toNat

/-- Rendering of a rational with no decimal places (the `:.0f` format). -/
def fmt0 (q : ℚ) : String := toString (round q : ℤ)

/-- The nine cells of one ledger row, in column order. -/
def rowCells (s : Summary) (label date : String) : List String :=
  [ date,
    label,
    match s.mips_avg with
    | some v => fmt2 v
    | none => "N/A",
    match s.mips_min with
    | some v => fmt2 v ++ "-" ++ fmt2 (s.mips_max.getD 0)
    | none => "N/A",
    match s.cycles_avg with
    | some v => fmt0 v
    | none => "N/A",
    match s.exec_pct_avg with
    | some v => fmt0 v ++ "%"
    | none => "N/A",
    match s.psram_bw_avg with
    | some v => fmt0 v ++ " KB/s"
    | none => "N/A",
    s.bottleneck.getD "N/A",
    s.wifi_status ]

/-- The single data row appended per invocation. -/
def renderRow (s : Summary) (label date : String) : String :=
  "| " ++ String.intercalate " | " (rowCells s label date) ++ " |"

/-- `append_to_tracking_doc`, over the tracking document's contents as a
list of lines (`none` = the file does not exist): writes the fixed header
only when the file is absent, then appends exactly one row. -/
def append_to_tracking_doc (file : Option (List String)) (s : Summary)
    (label date : String) : List String :=
  (match file with
   | none => headerLines
   | some content => content) ++ [renderRow s label date]

/-- Externally observable actions of `main`, in program order. -/
inductive MainEvent where
  | printSummary
  | saveRaw
  | appendLedger
  | exitWith (code : ℕ)
deriving DecidableEq, Repr

/-- Control flow of `main`, abstracted over the two I/O outcomes: whether
any serial port could be opened (`portFound`) and the captured lines.
`sys.exit` ends the run, so the event trace stops at the first exit. -/
def mainEvents (portFound : Bool) (lines : List Line) (noSave : Bool) : List MainEvent :=
  if !portFound then [.exitWith 1]
  else if lines.isEmpty then [.exitWith 1]
  else
    [.printSummary] ++
    (if noSave then [] else [.saveRaw, .appendLedger]) ++
    (if (extract_metrics lines).wifi_error then [.exitWith 2] else [.exitWith 0])

/-- The process exit status: the first (only) exit event of the trace. -/
def exitOf (evs : List MainEvent) : Option ℕ :=
  evs.findSome? (fun e =>
    match e with
    | .exitWith n => some n
    | _ => none)

/-- State for the block-segmentation view of the `extract_metrics` loop:
the raw line runs of the completed (terminated) profiler blocks. -/
structure SegState where
  segs : List (List Line)
  cur : List Line
  inBlock : Bool

/-- Segmentation counterpart of `extractStep`: same sentinel branches,
collecting the raw content of each terminated block. -/
def segStep (st : SegState) (line : Line) : SegState :=
  if containsSub startSentinel line then
    { st with inBlock := true, cur := [] }
  else if containsSub endSentinel line && st.inBlock then
    { st with segs := st.segs ++ [st.cur], inBlock := false }
  else if st.inBlock then
    { st with cur := st.cur ++ [line] }
  else st

/-- The raw line runs enclosed by a start sentinel and a later end
sentinel, in order of completion. -/
def segmentBlocks (lines : List Line) : List (List Line) :=
  (lines.foldl segStep ⟨[], [], false⟩).segs

/-- Statement of the throughput pattern from the spec: the line contains a
parenthesized decimal number (digits, optionally followed by a point and
further digits) immediately followed by optional whitespace and the fixed
unit label, and `v` is that number's exact value. -/
def MipsDecomp (line : Line) (v : ℚ) : Prop :=
  ∃ pre d1 dot fd sp post,
    line = pre ++ '(' :: (d1 ++ (if dot then '.' :: fd else []) ++ sp ++ mipsTail ++ post) ∧
    d1 ≠ [] ∧ d1.all Char.isDigit = true ∧ fd.all Char.isDigit = true ∧
    (dot = false → fd = []) ∧ sp.all isPySpace = true ∧
    v = decToRat d1 fd

/-- Concrete block A of the field-presence example: it has
`total_cycles = 123`. -/
def blockA : BlockMetrics := { total_cycles := some 123 }

/-- Concrete block B of the field-presence example: it lacks
`total_cycles` entirely. -/
def blockB : BlockMetrics := { psram_total_kbps := some 5327 }

/-- Metrics with the two example blocks. -/
def metricsAB : Metrics :=
  { mips_values := [], profiler_blocks := [blockA, blockB],
    wifi_connected := false, wifi_error := false }

/-- A capture containing both the connected marker and (after
lowercasing) the failure marker. -/
def linesBothMarkers : List Line :=
  ["WiFi connected".toList, "xx Assert FAILED: boom".toList]

/-- A single-sample metrics record. -/
def metricsOneSample : Metrics :=
  { mips_values := [207 / 100], profiler_blocks := [],
    wifi_connected := false, wifi_error := false }

/-- Three blocks whose bottleneck tags are CPU, CPU, PSRAM. -/
def metricsVote : Metrics :=
  { mips_values := [],
    profiler_blocks :=
      [{ bottleneck := some "CPU" }, { bottleneck := some "CPU" },
       { bottleneck := some "PSRAM" }],
    wifi_connected := false, wifi_error := false }

/-- An example throughput line from the source's comment. -/
def ipsLine : Line :=
  "[IPS] 2074192 instructions/sec (2.07 MIPS), total: 132120000".toList

/-- An example cycle-breakdown line from the source's comment. -/
def cyclesLine : Line :=
  "Cycles/instr: fetch=14 (11%) exec=109 (89%) total=123".toList

/-! ### Summary field lemmas -/

lemma summaryWithMips_wifi (s : Summary) (vals : List ℚ) :
    (summaryWithMips s vals).wifi_status = s.wifi_status := by
  cases vals <;> rfl

lemma summaryWithMips_cycles (s : Summary) (vals : List ℚ) :
    (summaryWithMips s vals).cycles_avg = s.cycles_avg := by
  cases vals <;> rfl

lemma summaryWithMips_exec (s : Summary) (vals : List ℚ) :
    (summaryWithMips s vals).exec_pct_avg = s.exec_pct_avg := by
  cases vals <;> rfl

lemma summaryWithMips_psram (s : Summary) (vals : List ℚ) :
    (summaryWithMips s vals).psram_bw_avg = s.psram_bw_avg := by
  cases vals <;> rfl

lemma summaryWithMips_bottleneck (s : Summary) (vals : List ℚ) :
    (summaryWithMips s vals).bottleneck = s.bottleneck := by
  cases vals <;> rfl

lemma summaryWithMips_pcount (s : Summary) (vals : List ℚ) :
    (summaryWithMips s vals).profiler_count = s.profiler_count := by
  cases vals <;> rfl

lemma sumCycles_wifi (s : Summary) (bl : List BlockMetrics) :
    (sumCycles s bl).wifi_status = s.wifi_status := by
  unfold sumCycles; split_ifs <;> rfl

lemma sumExec_wifi (s : Summary) (bl : List BlockMetrics) :
    (sumExec s bl).wifi_status = s.wifi_status := by
  unfold sumExec; split_ifs <;> rfl

lemma sumBW_wifi (s : Summary) (bl : List BlockMetrics) :
    (sumBW s bl).wifi_status = s.wifi_status := by
  unfold sumBW; split_ifs <;> rfl

lemma summaryWithBlocks_wifi (s : Summary) (blocks : List BlockMetrics) :
    (summaryWithBlocks s blocks).wifi_status = s.wifi_status := by
  cases blocks with
  | nil => rfl
  | cons b bs =>
    show (sumBW (sumExec (sumCycles s (b :: bs)) (b :: bs)) (b :: bs)).wifi_status = _
    rw [sumBW_wifi, sumExec_wifi, sumCycles_wifi]

lemma calculate_summary_wifi (m : Metrics) :
    (calculate_summary m).wifi_status =
      if m.wifi_error then "ERROR"
      else if m.wifi_connected then "Connected"
      else "Unknown" := by
  unfold calculate_summary
  rw [summaryWithBlocks_wifi, summaryWithMips_wifi]

lemma summaryWithBlocks_mips_avg (s : Summary) (blocks : List BlockMetrics) :
    (summaryWithBlocks s blocks).mips_avg = s.mips_avg := by
  cases blocks with
  | nil => rfl
  | cons b bs =>
    simp only [summaryWithBlocks, sumBW, sumExec, sumCycles]
    split_ifs <;> rfl

lemma summaryWithBlocks_mips_min (s : Summary) (blocks : List BlockMetrics) :
    (summaryWithBlocks s blocks).mips_min = s.mips_min := by
  cases blocks with
  | nil => rfl
  | cons b bs =>
    simp only [summaryWithBlocks, sumBW, sumExec, sumCycles]
    split_ifs <;> rfl

lemma summaryWithBlocks_mips_max (s : Summary) (blocks : List BlockMetrics) :
    (summaryWithBlocks s blocks).mips_max = s.mips_max := by
  cases blocks with
  | nil => rfl
  | cons b bs =>
    simp only [summaryWithBlocks, sumBW, sumExec, sumCycles]
    split_ifs <;> rfl

lemma summaryWithBlocks_mips_stdev (s : Summary) (blocks : List BlockMetrics) :
    (summaryWithBlocks s blocks).mips_stdev = s.mips_stdev := by
  cases blocks with
  | nil => rfl
  | cons b bs =>
    simp only [summaryWithBlocks, sumBW, sumExec, sumCycles]
    split_ifs <;> rfl

lemma summaryWithBlocks_mips_count (s : Summary) (blocks : List BlockMetrics) :
    (summaryWithBlocks s blocks).mips_count = s.mips_count := by
  cases blocks with
  | nil => rfl
  | cons b bs =>
    simp only [summaryWithBlocks, sumBW, sumExec, sumCycles]
    split_ifs <;> rfl

lemma summaryWithBlocks_cycles_cons (s : Summary) (b : BlockMetrics) (bs : List BlockMetrics) :
    (summaryWithBlocks s (b :: bs)).cycles_avg =
      if (b :: bs).all (fun x => x.total_cycles.isSome) then
        some (fieldMean (b :: bs) (fun x => x.total_cycles))
      else s.cycles_avg := by
  simp only [summaryWithBlocks, sumBW, sumExec, sumCycles]
  split_ifs <;> rfl

lemma summaryWithBlocks_exec_cons (s : Summary) (b : BlockMetrics) (bs : List BlockMetrics) :
    (summaryWithBlocks s (b :: bs)).exec_pct_avg =
      if (b :: bs).all (fun x => x.exec_pct.isSome) then
        some (fieldMean (b :: bs) (fun x => x.exec_pct))
      else s.exec_pct_avg := by
  simp only [summaryWithBlocks, sumBW, sumExec, sumCycles]
  split_ifs <;> rfl

lemma summaryWithBlocks_psram_cons (s : Summary) (b : BlockMetrics) (bs : List BlockMetrics) :
    (summaryWithBlocks s (b :: bs)).psram_bw_avg =
      if (b :: bs).all (fun x => x.psram_total_kbps.isSome) then
        some (fieldMean (b :: bs) (fun x => x.psram_total_kbps))
      else s.psram_bw_avg := by
  simp only [summaryWithBlocks, sumBW, sumExec, sumCycles]
  split_ifs <;> rfl

lemma summaryWithBlocks_bottleneck_cons (s : Summary) (b : BlockMetrics) (bs : List BlockMetrics) :
    (summaryWithBlocks s (b :: bs)).bottleneck =
      pyMaxByCount ((b :: bs).map (fun x => x.bottleneck.getD "Unknown")) := by
  simp only [summaryWithBlocks, sumBW, sumExec, sumCycles]

lemma summaryWithBlocks_pcount_cons (s : Summary) (b : BlockMetrics) (bs : List BlockMetrics) :
    (summaryWithBlocks s (b :: bs)).profiler_count = some (b :: bs).length := by
  simp only [summaryWithBlocks, sumBW, sumExec, sumCycles]

lemma initSummary_fields (w : String) :
    ({ wifi_status := w } : Summary).cycles_avg = none ∧
    ({ wifi_status := w } : Summary).exec_pct_avg = none ∧
    ({ wifi_status := w } : Summary).psram_bw_avg = none ∧
    ({ wifi_status := w } : Summary).mips_avg = none ∧
    ({ wifi_status := w } : Summary).mips_min = none ∧
    ({ wifi_status := w } : Summary).mips_max = none ∧
    ({ wifi_status := w } : Summary).mips_stdev = none ∧
    ({ wifi_status := w } : Summary).mips_count = none :=
  ⟨rfl, rfl, rfl, rfl, rfl, rfl, rfl, rfl⟩

/-- C1: for every non-empty list of profiler blocks, each averaged
profiler statistic (average total cycles, average exec percentage,
average PSRAM bandwidth) is present in the summary if and only if every
captured block contains the corresponding field. -/
theorem claim_C1 (m : Metrics) (hne : m.profiler_blocks ≠ []) :
    ((calculate_summary m).cycles_avg.isSome = true ↔
      ∀ b ∈ m.profiler_blocks, b.total_cycles.isSome = true) ∧
    ((calculate_summary m).exec_pct_avg.isSome = true ↔
      ∀ b ∈ m.profiler_blocks, b.exec_pct.isSome = true) ∧
    ((calculate_summary m).psram_bw_avg.isSome = true ↔
      ∀ b ∈ m.profiler_blocks, b.psram_total_kbps.isSome = true) := by
  obtain ⟨b, bs, hbl⟩ : ∃ b bs, m.profiler_blocks = b :: bs := by
    cases h : m.profiler_blocks with
    | nil => exact absurd h hne
    | cons b bs => exact ⟨b, bs, rfl⟩
  unfold calculate_summary
  rw [hbl]
  refine ⟨?_, ?_, ?_⟩
  · rw [summaryWithBlocks_cycles_cons]
    by_cases h : ((b :: bs).all fun x => x.total_cycles.isSome) = true
    · rw [if_pos h]; simpa using List.all_eq_true.mp h
    · rw [if_neg h, summaryWithMips_cycles]
      dsimp only
      simpa using fun hall => h (List.all_eq_true.mpr hall)
  · rw [summaryWithBlocks_exec_cons]
    by_cases h : ((b :: bs).all fun x => x.exec_pct.isSome) = true
    · rw [if_pos h]; simpa using List.all_eq_true.mp h
    · rw [if_neg h, summaryWithMips_exec]
      dsimp only
      simpa using fun hall => h (List.all_eq_true.mpr hall)
  · rw [summaryWithBlocks_psram_cons]
    by_cases h : ((b :: bs).all fun x => x.psram_total_kbps.isSome) = true
    · rw [if_pos h]; simpa using List.all_eq_true.mp h
    · rw [if_neg h, summaryWithMips_psram]
      dsimp only
      simpa using fun hall => h (List.all_eq_true.mpr hall)

/-- Witness for C1 at the concrete pair of blocks: block A has
`total_cycles = 123`, block B lacks the field, and the average-total-cycles
statistic is absent. -/
theorem claim_C1_witness :
    (((calculate_summary metricsAB).cycles_avg.isSome = true ↔
        ∀ b ∈ metricsAB.profiler_blocks, b.total_cycles.isSome = true) ∧
     (calculate_summary metricsAB).cycles_avg = none) :=
  ⟨(claim_C1 metricsAB (by decide)).1, by decide⟩

/-- C2: the aggregated status is three-valued with strict precedence —
`ERROR` whenever the failure flag (case-insensitive presence of
`assert failed` in any line) is set, else `Connected` whenever the
connected flag is set, else `Unknown`; in particular a capture containing
both markers reports `ERROR`, never `Connected`. -/
theorem claim_C2 (lines : List Line) :
    ((extract_metrics lines).wifi_error = true →
      (calculate_summary (extract_metrics lines)).wifi_status = "ERROR") ∧
    ((extract_metrics lines).wifi_error = false →
      (extract_metrics lines).wifi_connected = true →
      (calculate_summary (extract_metrics lines)).wifi_status = "Connected") ∧
    ((extract_metrics lines).wifi_error = false →
      (extract_metrics lines).wifi_connected = false →
      (calculate_summary (extract_metrics lines)).wifi_status = "Unknown") ∧
    ((∃ l ∈ lines, containsSub "WiFi connected".toList l = true) →
     (∃ l ∈ lines, containsSub "assert failed".toList (l.map asciiLower) = true) →
      (calculate_summary (extract_metrics lines)).wifi_status = "ERROR" ∧
      (calculate_summary (extract_metrics lines)).wifi_status ≠ "Connected") := by
  have hw := calculate_summary_wifi (extract_metrics lines)
  refine ⟨?_, ?_, ?_, ?_⟩
  · intro he; rw [hw, if_pos he]
  · intro he hc; rw [hw, if_neg (by simp [he]), if_pos hc]
  · intro he hc; rw [hw, if_neg (by simp [he]), if_neg (by simp [hc])]
  · intro _ hfail
    have herr : (extract_metrics lines).wifi_error = true := by
      show (lines.any fun l => containsSub "assert failed".toList (l.map asciiLower)) = true
      exact List.any_eq_true.mpr (by simpa using hfail)
    rw [hw, if_pos herr]
    exact ⟨rfl, by decide⟩

/-- Witness for C2: a concrete capture containing both the connected
marker and (case-insensitively) the failure marker reports `ERROR`. -/
theorem claim_C2_witness :
    (calculate_summary (extract_metrics linesBothMarkers)).wifi_status = "ERROR" ∧
    (calculate_summary (extract_metrics linesBothMarkers)).wifi_status ≠ "Connected" :=
  (claim_C2 linesBothMarkers).2.2.2
    ⟨"WiFi connected".toList, by decide, by decide⟩
    ⟨"xx Assert FAILED: boom".toList, by decide, by decide⟩

lemma listMean_singleton (v : ℚ) : listMean [v] = v := by
  simp [listMean]

lemma summaryWithMips_cons (s : Summary) (x : ℚ) (xs : List ℚ) :
    (summaryWithMips s (x :: xs)).mips_avg = some (listMean (x :: xs)) ∧
    (summaryWithMips s (x :: xs)).mips_min = some (xs.foldl min x) ∧
    (summaryWithMips s (x :: xs)).mips_max = some (xs.foldl max x) ∧
    (summaryWithMips s (x :: xs)).mips_stdev =
      (if 1 < (x :: xs).length then some (sampleVariance (x :: xs)) else none) ∧
    (summaryWithMips s (x :: xs)).mips_count = some (x :: xs).length :=
  ⟨rfl, rfl, rfl, rfl, rfl⟩

/-- C5: throughput statistics appear only when at least one sample
exists; with exactly one sample of value `v` the summary omits the spread
statistic but reports average, minimum and maximum all equal to `v` and a
count of 1; the spread statistic is present exactly when there are two or
more samples. -/
theorem claim_C5 (m : Metrics) :
    (m.mips_values = [] →
      (calculate_summary m).mips_avg = none ∧
      (calculate_summary m).mips_min = none ∧
      (calculate_summary m).mips_max = none ∧
      (calculate_summary m).mips_stdev = none ∧
      (calculate_summary m).mips_count = none) ∧
    (∀ v : ℚ, m.mips_values = [v] →
      (calculate_summary m).mips_avg = some v ∧
      (calculate_summary m).mips_min = some v ∧
      (calculate_summary m).mips_max = some v ∧
      (calculate_summary m).mips_stdev = none ∧
      (calculate_summary m).mips_count = some 1) ∧
    ((calculate_summary m).mips_stdev.isSome = true ↔ 2 ≤ m.mips_values.length) := by
  unfold calculate_summary
  rw [summaryWithBlocks_mips_avg, summaryWithBlocks_mips_min, summaryWithBlocks_mips_max,
    summaryWithBlocks_mips_stdev, summaryWithBlocks_mips_count]
  refine ⟨?_, ?_, ?_⟩
  · intro h0; rw [h0]
    exact ⟨rfl, rfl, rfl, rfl, rfl⟩
  · intro v hv; rw [hv]
    exact ⟨by rw [(summaryWithMips_cons _ v []).1, listMean_singleton], rfl, rfl, rfl, rfl⟩
  · cases hv : m.mips_values with
    | nil => simp [summaryWithMips]
    | cons x xs =>
      rw [(summaryWithMips_cons _ x xs).2.2.2.1]
      by_cases h : 1 < (x :: xs).length
      · rw [if_pos h]; simp only [Option.isSome_some, true_iff]
        simpa using h
      · rw [if_neg h]; simp only [Option.isSome_none]
        constructor
        · intro hfalse; cases hfalse
        · intro h2; exact absurd (by simpa using h2) h

/-- Witness for C5 at a single-sample capture: average, minimum and
maximum equal the sample, the spread statistic is omitted, and the count
is 1. -/
theorem claim_C5_witness :
    (calculate_summary metricsOneSample).mips_avg = some (207 / 100) ∧
    (calculate_summary metricsOneSample).mips_min = some (207 / 100) ∧
    (calculate_summary metricsOneSample).mips_max = some (207 / 100) ∧
    (calculate_summary metricsOneSample).mips_stdev = none ∧
    (calculate_summary metricsOneSample).mips_count = some 1 :=
  (claim_C5 metricsOneSample).2.1 (207 / 100) rfl

lemma dedupFold_mem (l : List String) :
    ∀ (acc : List String) (z : String),
      (z ∈ l.foldl (fun acc x => if x ∈ acc then acc else acc ++ [x]) acc) ↔
        z ∈ acc ∨ z ∈ l := by
  induction l with
  | nil => simp
  | cons a as ih =>
    intro acc z
    simp only [List.foldl_cons]
    by_cases h : a ∈ acc
    · rw [if_pos h, ih]
      simp only [List.mem_cons]
      constructor
      · rintro (hz | hz)
        · exact Or.inl hz
        · exact Or.inr (Or.inr hz)
      · rintro (hz | rfl | hz)
        · exact Or.inl hz
        · exact Or.inl h
        · exact Or.inr hz
    · rw [if_neg h, ih]
      simp only [List.mem_append, List.mem_cons, List.mem_singleton]
      tauto

lemma firstDedup_mem (l : List String) (z : String) :
    z ∈ firstDedup l ↔ z ∈ l := by
  unfold firstDedup
  rw [dedupFold_mem]
  simp

lemma pyFold_spec (key : String → ℕ) :
    ∀ (xs : List String) (x : String),
      ∃ pre post, x :: xs = pre ++ pyFold key x xs :: post ∧
        (∀ z ∈ pre, key z < key (pyFold key x xs)) ∧
        (∀ z ∈ x :: xs, key z ≤ key (pyFold key x xs)) := by
  intro xs
  induction xs with
  | nil =>
    intro x
    exact ⟨[], [], rfl, by simp, by simp [pyFold]⟩
  | cons y ys ih =>
    intro x
    have hstep : pyFold key x (y :: ys) = pyFold key (if key x < key y then y else x) ys := rfl
    by_cases hxy : key x < key y
    · obtain ⟨pre, post, heq, hpre, hmax⟩ := ih y
      rw [hstep, if_pos hxy]
      have hxr : key x < key (pyFold key y ys) :=
        lt_of_lt_of_le hxy (hmax y (by simp))
      refine ⟨x :: pre, post, ?_, ?_, ?_⟩
      · simpa using congrArg (fun l => x :: l) heq
      · intro z hz
        rcases List.mem_cons.mp hz with rfl | hz
        · exact hxr
        · exact hpre z hz
      · intro z hz
        rcases List.mem_cons.mp hz with rfl | hz
        · exact le_of_lt hxr
        · exact hmax z hz
    · obtain ⟨pre, post, heq, hpre, hmax⟩ := ih x
      rw [hstep, if_neg hxy]
      have hyr : key y ≤ key (pyFold key x ys) :=
        le_trans (not_lt.mp hxy) (hmax x (by simp))
      cases pre with
      | nil =>
        simp only [List.nil_append] at heq
        injection heq with h1 h2
        refine ⟨[], y :: post, ?_, by simp, ?_⟩
        · rw [List.nil_append, ← h1, ← h2]
        · intro z hz
          rcases List.mem_cons.mp hz with rfl | hz
          · exact hmax z (by simp)
          · rcases List.mem_cons.mp hz with rfl | hz
            · exact hyr
            · exact hmax z (by simp [hz])
      | cons p ps =>
        simp only [List.cons_append] at heq
        injection heq with h1 h2
        have hxlt : key x < key (pyFold key x ys) :=
          lt_of_eq_of_lt (congrArg key h1) (hpre p (by simp))
        refine ⟨x :: y :: ps, post, ?_, ?_, ?_⟩
        · conv_rhs => rw [List.cons_append, List.cons_append, ← h2]
        · intro z hz
          rcases List.mem_cons.mp hz with rfl | hz
          · exact hxlt
          · rcases List.mem_cons.mp hz with rfl | hz
            · exact lt_of_le_of_lt (not_lt.mp hxy) hxlt
            · exact hpre z (by simp [hz])
        · intro z hz
          rcases List.mem_cons.mp hz with rfl | hz
          · exact hmax z (by simp)
          · rcases List.mem_cons.mp hz with rfl | hz
            · exact hyr
            · exact hmax z (by simp [hz])

/-- C3: for every non-empty list of profiler blocks the aggregated
bottleneck is defined and is a majority vote over the blocks' tags, where
blocks lacking a tag vote as `Unknown`: the result occurs among the tags,
no tag has a strictly greater count, and the result is the first tag of
the stable enumeration attaining the maximal count. -/
theorem claim_C3 (m : Metrics) (hne : m.profiler_blocks ≠ []) :
    ∃ r, (calculate_summary m).bottleneck = some r ∧
      r ∈ m.profiler_blocks.map (fun b => b.bottleneck.getD "Unknown") ∧
      (∀ t, (m.profiler_blocks.map (fun b => b.bottleneck.getD "Unknown")).count t ≤
            (m.profiler_blocks.map (fun b => b.bottleneck.getD "Unknown")).count r) ∧
      (∃ pre post,
        firstDedup (m.profiler_blocks.map (fun b => b.bottleneck.getD "Unknown")) =
          pre ++ r :: post ∧
        ∀ z ∈ pre,
          (m.profiler_blocks.map (fun b => b.bottleneck.getD "Unknown")).count z <
          (m.profiler_blocks.map (fun b => b.bottleneck.getD "Unknown")).count r) ∧
      ((∀ b ∈ m.profiler_blocks, b.bottleneck = none) → r = "Unknown") := by
  obtain ⟨b, bs, hbl⟩ : ∃ b bs, m.profiler_blocks = b :: bs := by
    cases h : m.profiler_blocks with
    | nil => exact absurd h hne
    | cons b bs => exact ⟨b, bs, rfl⟩
  unfold calculate_summary
  rw [hbl, summaryWithBlocks_bottleneck_cons]
  set bots := (b :: bs).map (fun x => x.bottleneck.getD "Unknown") with hbots
  obtain ⟨d, ds, hdd⟩ : ∃ d ds, firstDedup bots = d :: ds := by
    cases h : firstDedup bots with
    | nil =>
      exfalso
      have : b.bottleneck.getD "Unknown" ∈ firstDedup bots :=
        (firstDedup_mem _ _).mpr (by simp [hbots])
      rw [h] at this
      cases this
    | cons d ds => exact ⟨d, ds, rfl⟩
  obtain ⟨pre, post, heq, hpre, hmax⟩ := pyFold_spec (fun t => bots.count t) ds d
  set r := pyFold (fun t => bots.count t) d ds with hr
  have hmem : r ∈ bots := by
    rw [← firstDedup_mem, hdd, heq]
    exact List.mem_append_right _ (by simp)
  refine ⟨r, ?_, by simpa [hbots] using hmem, ?_, ⟨pre, post, ?_, hpre⟩, ?_⟩
  · show pyMaxByCount bots = some r
    unfold pyMaxByCount
    rw [hdd]
  · intro t
    by_cases ht : t ∈ bots
    · have htd : t ∈ d :: ds := by
        rw [← hdd]; exact (firstDedup_mem _ _).mpr ht
      exact hmax t htd
    · rw [List.count_eq_zero.mpr ht]
      exact Nat.zero_le _
  · rw [hdd, heq]
  · intro hall
    rcases List.mem_map.mp hmem with ⟨b0, hb0, hrb⟩
    rw [hall b0 (hbl ▸ hb0)] at hrb
    exact hrb.symm

/-- Witness for C3 at tags CPU, CPU, PSRAM: the vote yields CPU. -/
theorem claim_C3_witness :
    (calculate_summary metricsVote).bottleneck = some "CPU" ∧
    (∃ r, (calculate_summary metricsVote).bottleneck = some r ∧
      r ∈ metricsVote.profiler_blocks.map (fun b => b.bottleneck.getD "Unknown") ∧
      (∀ t, (metricsVote.profiler_blocks.map (fun b => b.bottleneck.getD "Unknown")).count t ≤
            (metricsVote.profiler_blocks.map (fun b => b.bottleneck.getD "Unknown")).count r) ∧
      (∃ pre post,
        firstDedup (metricsVote.profiler_blocks.map (fun b => b.bottleneck.getD "Unknown")) =
          pre ++ r :: post ∧
        ∀ z ∈ pre,
          (metricsVote.profiler_blocks.map (fun b => b.bottleneck.getD "Unknown")).count z <
          (metricsVote.profiler_blocks.map (fun b => b.bottleneck.getD "Unknown")).count r) ∧
      ((∀ b ∈ metricsVote.profiler_blocks, b.bottleneck = none) → r = "Unknown")) :=
  ⟨by decide, claim_C3 metricsVote (by decide)⟩

/-! ### The extractor loop and the throughput pattern -/

lemma takeWhile_eq_self {p : α → Bool} {l : List α} (h : l.all p = true) :
    l.takeWhile p = l := by
  induction l with
  | nil => rfl
  | cons a as ih =>
    simp only [List.all_cons, Bool.and_eq_true] at h
    simp [List.takeWhile, h.1, ih h.2]

lemma dropWhile_eq_nil {p : α → Bool} {l : List α} (h : l.all p = true) :
    l.dropWhile p = [] := by
  induction l with
  | nil => rfl
  | cons a as ih =>
    simp only [List.all_cons, Bool.and_eq_true] at h
    simp [List.dropWhile, h.1, ih h.2]

lemma extractStep_mips (st : ExtractState) (line : Line) :
    (extractStep st line).mips_values = st.mips_values ++ (parse_ips_line line).toList := by
  unfold extractStep
  cases h : parse_ips_line line with
  | none =>
    simp only [h, Option.toList_none, List.append_nil]
    split_ifs <;> rfl
  | some v =>
    simp only [h, Option.toList_some]
    split_ifs <;> rfl

lemma extract_fold_mips (lines : List Line) :
    ∀ st : ExtractState,
      (lines.foldl extractStep st).mips_values =
        st.mips_values ++ lines.filterMap parse_ips_line := by
  induction lines with
  | nil => intro st; simp
  | cons l ls ih =>
    intro st
    rw [List.foldl_cons, ih, extractStep_mips, List.filterMap_cons]
    cases h : parse_ips_line l <;> simp [h]

lemma searchO_sound {α : Type} (p : List Char → Option α) :
    ∀ (l : List Char) (r : α), searchO p l = some r →
      ∃ pre suf, l = pre ++ suf ∧ p suf = some r := by
  intro l
  induction l with
  | nil => intro r h; exact ⟨[], [], rfl, h⟩
  | cons c cs ih =>
    intro r h
    simp only [searchO] at h
    cases hp : p (c :: cs) with
    | some r0 =>
      rw [hp] at h
      dsimp only at h
      exact ⟨[], c :: cs, rfl, by rw [hp, h]⟩
    | none =>
      rw [hp] at h
      dsimp only at h
      obtain ⟨pre, suf, heq, hs⟩ := ih r h
      exact ⟨c :: pre, suf, by rw [heq]; rfl, hs⟩

lemma matchMipsAt_sound (s : List Char) (g : MipsGroup)
    (h : matchMipsAt s = some g) :
    (∃ sp post, s = '(' :: (g.raw ++ sp ++ mipsTail ++ post) ∧ sp.all isPySpace = true) ∧
    (g.dot = false → g.fp.val = []) := by
  cases s with
  | nil => exact absurd h (by simp [matchMipsAt])
  | cons c rest =>
    simp only [matchMipsAt] at h
    split_ifs at h with hc h1 hdot hp1 hp2
    · -- dot branch, tail matched
      rw [Option.some.injEq] at h
      subst h
      subst hc
      obtain ⟨post, hpost⟩ := (isPre_iff _ _).mp hp1
      refine ⟨⟨((rest.dropWhile Char.isDigit).tail.dropWhile Char.isDigit).takeWhile isPySpace,
               post, ?_, takeWhile_all _ _⟩, by intro hfalse; cases hfalse⟩
      have hr1 : rest.dropWhile Char.isDigit =
          '.' :: (rest.dropWhile Char.isDigit).tail := by
        cases hcase : rest.dropWhile Char.isDigit with
        | nil => rw [hcase] at hdot; cases hdot
        | cons a t =>
          rw [hcase] at hdot
          simp only [List.head?_cons, Option.some.injEq] at hdot
          rw [hdot]; rfl
      conv_lhs =>
        rw [show rest = rest.takeWhile Char.isDigit ++ rest.dropWhile Char.isDigit from
              (List.takeWhile_append_dropWhile _ _).symm,
            hr1,
            show (rest.dropWhile Char.isDigit).tail =
                (rest.dropWhile Char.isDigit).tail.takeWhile Char.isDigit ++
                (rest.dropWhile Char.isDigit).tail.dropWhile Char.isDigit from
              (List.takeWhile_append_dropWhile _ _).symm,
            show ((rest.dropWhile Char.isDigit).tail.dropWhile Char.isDigit) =
                ((rest.dropWhile Char.isDigit).tail.dropWhile Char.isDigit).takeWhile isPySpace ++
                ((rest.dropWhile Char.isDigit).tail.dropWhile Char.isDigit).dropWhile isPySpace from
              (List.takeWhile_append_dropWhile _ _).symm,
            hpost]
      simp [MipsGroup.raw, List.append_assoc]
    · -- no-dot branch, tail matched
      rw [Option.some.injEq] at h
      subst h
      subst hc
      obtain ⟨post, hpost⟩ := (isPre_iff _ _).mp hp2
      refine ⟨⟨(rest.dropWhile Char.isDigit).takeWhile isPySpace, post, ?_,
               takeWhile_all _ _⟩, fun _ => rfl⟩
      conv_lhs =>
        rw [show rest = rest.takeWhile Char.isDigit ++ rest.dropWhile Char.isDigit from
              (List.takeWhile_append_dropWhile _ _).symm,
            show rest.dropWhile Char.isDigit =
                (rest.dropWhile Char.isDigit).takeWhile isPySpace ++
                (rest.dropWhile Char.isDigit).dropWhile isPySpace from
              (List.takeWhile_append_dropWhile _ _).symm,
            hpost]
      simp [MipsGroup.raw, List.append_assoc]

lemma pyFloatParse_raw (g : MipsGroup) :
    pyFloatParse g.raw = some (decToRat g.ip.val (if g.dot then g.fp.val else [])) := by
  obtain ⟨⟨ip, hne, hdig⟩, dot, ⟨fp, hfp⟩⟩ := g
  cases dot with
  | false =>
    show pyFloatParse (ip ++ []) = some (decToRat ip [])
    rw [List.append_nil]
    unfold pyFloatParse
    rw [takeWhile_eq_self hdig, dropWhile_eq_nil hdig]
    simp [List.isEmpty_iff, hne]
  | true =>
    show pyFloatParse (ip ++ '.' :: fp) = some (decToRat ip fp)
    unfold pyFloatParse
    rw [takeWhile_append_all _ _ _ hdig, dropWhile_append_all _ _ _ hdig]
    have h1 : ('.' :: fp).takeWhile Char.isDigit = [] := rfl
    have h2 : ('.' :: fp).dropWhile Char.isDigit = '.' :: fp := rfl
    rw [h1, h2, List.append_nil]
    simp [List.isEmpty_iff, hne, hfp]

lemma parse_ips_line_sound (line : Line) (v : ℚ)
    (h : parse_ips_line line = some v) : MipsDecomp line v := by
  unfold parse_ips_line at h
  cases hs : searchO matchMipsAt line with
  | none => rw [hs] at h; cases h
  | some g =>
    rw [hs] at h
    simp only [Option.map, Option.some.injEq] at h
    obtain ⟨pre, suf, hline, hm⟩ := searchO_sound matchMipsAt line g hs
    obtain ⟨⟨sp, post, hsuf, hsp⟩, hfpnil⟩ := matchMipsAt_sound suf g hm
    have hv : v = decToRat g.ip.val (if g.dot then g.fp.val else []) := by
      rw [← h]
      unfold pyFloatVal
      rw [pyFloatParse_raw]
      rfl
    refine ⟨pre, g.ip.val, g.dot, g.fp.val, sp, post, ?_,
      g.ip.property.1, g.ip.property.2, g.fp.property, hfpnil, hsp, ?_⟩
    · rw [hline, hsuf]
      simp [MipsGroup.raw]
    · cases hd : g.dot with
      | false => rw [hv, hd, if_neg (by simp), hfpnil hd]
      | true => rw [hv, hd, if_pos rfl]

/-- C4: the throughput samples of a capture are exactly the values of the
matching lines, one sample per matching line and none per non-matching
line, accumulated in arrival order; moreover every extracted sample comes
from an occurrence of the throughput pattern with that exact value. -/
theorem claim_C4 (lines : List Line) :
    (extract_metrics lines).mips_values = lines.filterMap parse_ips_line ∧
    ∀ line v, parse_ips_line line = some v → MipsDecomp line v := by
  constructor
  · show (lines.foldl extractStep ⟨[], [], [], false⟩).mips_values = _
    rw [extract_fold_mips]
    rfl
  · exact fun line v h => parse_ips_line_sound line v h

/-- Witness for C4: the sample sequence of a two-line capture whose first
line matches with value 2.07 and whose second line does not match is
exactly [2.07], and the matching line decomposes as the pattern. -/
theorem claim_C4_witness :
    (extract_metrics [ipsLine, "noise".toList]).mips_values = [(207 : ℚ) / 100] ∧
    MipsDecomp ipsLine ((207 : ℚ) / 100) := by
  have h2 : decToRat ['2'] ['0', '7'] = (207 : ℚ) / 100 := by
    have d1 : digitsToNat ['2'] = 2 := rfl
    have d2 : digitsToNat ['0', '7'] = 7 := rfl
    rw [decToRat, d1, d2]
    norm_num
  have hval : parse_ips_line ipsLine = some ((207 : ℚ) / 100) := by
    have h1 : parse_ips_line ipsLine = some (decToRat ['2'] ['0', '7']) := rfl
    rw [h1, h2]
  have hnoise : parse_ips_line ['n', 'o', 'i', 's', 'e'] = none := rfl
  have h := claim_C4 [ipsLine, "noise".toList]
  refine ⟨?_, h.2 ipsLine _ hval⟩
  rw [h.1]
  simp [List.filterMap_cons, hval, hnoise]

/-! ### Profiler block fields: last match wins -/

lemma stepProfilerLine_cycles (m : BlockMetrics) (l : Line) :
    (stepProfilerLine m l).fetch_cycles =
      (match cyclesOf l with
       | some g => some (digitsToNat g.1.val)
       | none => m.fetch_cycles) ∧
    (stepProfilerLine m l).fetch_pct =
      (match cyclesOf l with
       | some g => some (digitsToNat g.2.1.val)
       | none => m.fetch_pct) ∧
    (stepProfilerLine m l).exec_cycles =
      (match cyclesOf l with
       | some g => some (digitsToNat g.2.2.1.val)
       | none => m.exec_cycles) ∧
    (stepProfilerLine m l).exec_pct =
      (match cyclesOf l with
       | some g => some (digitsToNat g.2.2.2.1.val)
       | none => m.exec_pct) ∧
    (stepProfilerLine m l).total_cycles =
      (match cyclesOf l with
       | some g => some (digitsToNat g.2.2.2.2.val)
       | none => m.total_cycles) := by
  unfold stepProfilerLine
  rcases hc : cyclesOf l with _ | ⟨g1, g2, g3, g4, g5⟩ <;>
    rcases hb : bwOf l with _ | ⟨b1, b2, b3⟩ <;>
    rcases ht : tagOf l with _ | t <;>
    simp [hc, hb, ht]

lemma stepProfilerLine_bw (m : BlockMetrics) (l : Line) :
    (stepProfilerLine m l).psram_read_kbps =
      (match bwOf l with
       | some g => some (digitsToNat g.1.val)
       | none => m.psram_read_kbps) ∧
    (stepProfilerLine m l).psram_write_kbps =
      (match bwOf l with
       | some g => some (digitsToNat g.2.1.val)
       | none => m.psram_write_kbps) ∧
    (stepProfilerLine m l).psram_total_kbps =
      (match bwOf l with
       | some g => some (digitsToNat g.2.2.val)
       | none => m.psram_total_kbps) := by
  unfold stepProfilerLine
  rcases hc : cyclesOf l with _ | ⟨g1, g2, g3, g4, g5⟩ <;>
    rcases hb : bwOf l with _ | ⟨b1, b2, b3⟩ <;>
    rcases ht : tagOf l with _ | t <;>
    simp [hc, hb, ht]

lemma stepProfilerLine_tag (m : BlockMetrics) (l : Line) :
    (stepProfilerLine m l).bottleneck =
      (match tagOf l with
       | some t => some t
       | none => m.bottleneck) := by
  unfold stepProfilerLine
  rcases hc : cyclesOf l with _ | ⟨g1, g2, g3, g4, g5⟩ <;>
    rcases hb : bwOf l with _ | ⟨b1, b2, b3⟩ <;>
    rcases ht : tagOf l with _ | t <;>
    simp [hc, hb, ht]

lemma parse_profiler_block_append (ls : List Line) (l : Line) :
    parse_profiler_block (ls ++ [l]) = stepProfilerLine (parse_profiler_block ls) l := by
  simp [parse_profiler_block, List.foldl_append]

/-- C10: within a block, each field of the emitted mapping holds the
value captured from the last line of the block matching the corresponding
sub-pattern (later matches overwrite earlier ones), and the field is
absent exactly when no line of the block matches that sub-pattern. -/
theorem claim_C10 (ls : List Line) :
    (parse_profiler_block ls).fetch_cycles =
      ((ls.reverse.findSome? cyclesOf).map (fun g => digitsToNat g.1.val)) ∧
    (parse_profiler_block ls).fetch_pct =
      ((ls.reverse.findSome? cyclesOf).map (fun g => digitsToNat g.2.1.val)) ∧
    (parse_profiler_block ls).exec_cycles =
      ((ls.reverse.findSome? cyclesOf).map (fun g => digitsToNat g.2.2.1.val)) ∧
    (parse_profiler_block ls).exec_pct =
      ((ls.reverse.findSome? cyclesOf).map (fun g => digitsToNat g.2.2.2.1.val)) ∧
    (parse_profiler_block ls).total_cycles =
      ((ls.reverse.findSome? cyclesOf).map (fun g => digitsToNat g.2.2.2.2.val)) ∧
    (parse_profiler_block ls).psram_read_kbps =
      ((ls.reverse.findSome? bwOf).map (fun g => digitsToNat g.1.val)) ∧
    (parse_profiler_block ls).psram_write_kbps =
      ((ls.reverse.findSome? bwOf).map (fun g => digitsToNat g.2.1.val)) ∧
    (parse_profiler_block ls).psram_total_kbps =
      ((ls.reverse.findSome? bwOf).map (fun g => digitsToNat g.2.2.val)) ∧
    (parse_profiler_block ls).bottleneck = ls.reverse.findSome? tagOf := by
  induction ls using List.reverseRecOn with
  | nil => exact ⟨rfl, rfl, rfl, rfl, rfl, rfl, rfl, rfl, rfl⟩
  | append_singleton ls l ih =>
    obtain ⟨c1, c2, c3, c4, c5, b1, b2, b3, bt⟩ := ih
    have hrev : (ls ++ [l]).reverse = l :: ls.reverse := by simp
    rw [parse_profiler_block_append, hrev]
    have hcy := stepProfilerLine_cycles (parse_profiler_block ls) l
    have hbw := stepProfilerLine_bw (parse_profiler_block ls) l
    have htg := stepProfilerLine_tag (parse_profiler_block ls) l
    refine ⟨?_, ?_, ?_, ?_, ?_, ?_, ?_, ?_, ?_⟩
    · rw [hcy.1, List.findSome?_cons]
      cases hc : cyclesOf l <;> simp [hc, c1]
    · rw [hcy.2.1, List.findSome?_cons]
      cases hc : cyclesOf l <;> simp [hc, c2]
    · rw [hcy.2.2.1, List.findSome?_cons]
      cases hc : cyclesOf l <;> simp [hc, c3]
    · rw [hcy.2.2.2.1, List.findSome?_cons]
      cases hc : cyclesOf l <;> simp [hc, c4]
    · rw [hcy.2.2.2.2, List.findSome?_cons]
      cases hc : cyclesOf l <;> simp [hc, c5]
    · rw [hbw.1, List.findSome?_cons]
      cases hb : bwOf l <;> simp [hb, b1]
    · rw [hbw.2.1, List.findSome?_cons]
      cases hb : bwOf l <;> simp [hb, b2]
    · rw [hbw.2.2, List.findSome?_cons]
      cases hb : bwOf l <;> simp [hb, b3]
    · rw [htg, List.findSome?_cons]
      cases ht : tagOf l <;> simp [ht, bt]

/-! ### Block segmentation of the extractor loop -/

lemma extractStep_blocks (st : ExtractState) (line : Line) :
    (extractStep st line).profiler_blocks =
      if containsSub startSentinel line then st.profiler_blocks
      else if containsSub endSentinel line && st.in_profiler_block then
        (if (parse_profiler_block st.current_block).isEmpty then st.profiler_blocks
         else st.profiler_blocks ++ [parse_profiler_block st.current_block])
      else st.profiler_blocks := by
  unfold extractStep
  cases hm : parse_ips_line line <;> simp only [hm] <;> split_ifs <;> rfl

lemma extractStep_cur (st : ExtractState) (line : Line) :
    (extractStep st line).current_block =
      if containsSub startSentinel line then []
      else if containsSub endSentinel line && st.in_profiler_block then st.current_block
      else if st.in_profiler_block then st.current_block ++ [line]
      else st.current_block := by
  unfold extractStep
  cases hm : parse_ips_line line <;> simp only [hm] <;> split_ifs <;> rfl

lemma extractStep_inb (st : ExtractState) (line : Line) :
    (extractStep st line).in_profiler_block =
      if containsSub startSentinel line then true
      else if containsSub endSentinel line && st.in_profiler_block then false
      else st.in_profiler_block := by
  unfold extractStep
  cases hm : parse_ips_line line <;> simp only [hm] <;> split_ifs <;> rfl

lemma segStep_segs (sg : SegState) (line : Line) :
    (segStep sg line).segs =
      if containsSub startSentinel line then sg.segs
      else if containsSub endSentinel line && sg.inBlock then sg.segs ++ [sg.cur]
      else sg.segs := by
  unfold segStep
  split_ifs <;> rfl

lemma segStep_cur (sg : SegState) (line : Line) :
    (segStep sg line).cur =
      if containsSub startSentinel line then []
      else if containsSub endSentinel line && sg.inBlock then sg.cur
      else if sg.inBlock then sg.cur ++ [line]
      else sg.cur := by
  unfold segStep
  split_ifs <;> rfl

lemma segStep_inb (sg : SegState) (line : Line) :
    (segStep sg line).inBlock =
      if containsSub startSentinel line then true
      else if containsSub endSentinel line && sg.inBlock then false
      else sg.inBlock := by
  unfold segStep
  split_ifs <;> rfl

lemma fold_seg (lines : List Line) :
    ∀ (st : ExtractState) (sg : SegState),
      st.profiler_blocks = (sg.segs.map parse_profiler_block).filter (fun m => !m.isEmpty) →
      st.current_block = sg.cur →
      st.in_profiler_block = sg.inBlock →
      (lines.foldl extractStep st).profiler_blocks =
        (((lines.foldl segStep sg).segs.map parse_profiler_block).filter (fun m => !m.isEmpty)) ∧
      (lines.foldl extractStep st).current_block = (lines.foldl segStep sg).cur ∧
      (lines.foldl extractStep st).in_profiler_block = (lines.foldl segStep sg).inBlock := by
  induction lines with
  | nil => intro st sg h1 h2 h3; exact ⟨h1, h2, h3⟩
  | cons l ls ih =>
    intro st sg h1 h2 h3
    rw [List.foldl_cons, List.foldl_cons]
    apply ih
    · rw [extractStep_blocks, segStep_segs, h3]
      by_cases hstart : containsSub startSentinel l = true
      · rw [if_pos hstart, if_pos hstart]; exact h1
      · rw [if_neg hstart, if_neg hstart]
        by_cases hend : (containsSub endSentinel l && sg.inBlock) = true
        · rw [if_pos hend, if_pos hend, h2, h1]
          by_cases he : (parse_profiler_block sg.cur).isEmpty = true
          · rw [if_pos he]
            simp [List.map_append, List.filter_append, List.filter, he]
          · rw [if_neg he]
            simp [List.map_append, List.filter_append, List.filter, he]
        · rw [if_neg hend, if_neg hend]; exact h1
    · rw [extractStep_cur, segStep_cur, h3, h2]
    · rw [extractStep_inb, segStep_inb, h3]

lemma foldl_blocks_const (tail : List Line) :
    ∀ st : ExtractState, (∀ l ∈ tail, containsSub endSentinel l = false) →
      (tail.foldl extractStep st).profiler_blocks = st.profiler_blocks := by
  induction tail with
  | nil => intro st _; rfl
  | cons l ls ih =>
    intro st hall
    rw [List.foldl_cons, ih _ (fun x hx => hall x (List.mem_cons_of_mem _ hx)),
      extractStep_blocks]
    have hl : containsSub endSentinel l = false := hall l (by simp)
    rw [hl]
    split_ifs with h1 h2 h3
    · rfl
    · rfl
    · simp at h2
    · rfl

/-- C6: a profiler block enters the profiler sample sequence iff its
parsed mapping is non-empty, i.e. at least one sub-pattern was recognized
between its delimiters (the sequence is the non-empty parses of the
terminated raw segments, in order); every emitted block is non-empty; a
block whose start sentinel is seen but whose end sentinel never arrives
contributes nothing; and the profiler count counts exactly the emitted
blocks. -/
theorem claim_C6 :
    (∀ lines : List Line,
      (extract_metrics lines).profiler_blocks =
        ((segmentBlocks lines).map parse_profiler_block).filter (fun m => !m.isEmpty)) ∧
    (∀ lines : List Line, ∀ b ∈ (extract_metrics lines).profiler_blocks,
      b.isEmpty = false) ∧
    (∀ (pre tail : List Line) (startLine : Line),
      containsSub startSentinel startLine = true →
      (∀ l ∈ tail, containsSub endSentinel l = false) →
      (extract_metrics (pre ++ startLine :: tail)).profiler_blocks =
        (extract_metrics pre).profiler_blocks) ∧
    (∀ lines : List Line, (extract_metrics lines).profiler_blocks ≠ [] →
      (calculate_summary (extract_metrics lines)).profiler_count =
        some (extract_metrics lines).profiler_blocks.length) := by
  have hmain : ∀ lines : List Line,
      (extract_metrics lines).profiler_blocks =
        ((segmentBlocks lines).map parse_profiler_block).filter (fun m => !m.isEmpty) := by
    intro lines
    show (lines.foldl extractStep ⟨[], [], [], false⟩).profiler_blocks = _
    exact (fold_seg lines ⟨[], [], [], false⟩ ⟨[], [], false⟩ rfl rfl rfl).1
  refine ⟨hmain, ?_, ?_, ?_⟩
  · intro lines b hb
    rw [hmain] at hb
    have := (List.mem_filter.mp hb).2
    simpa using this
  · intro pre tail startLine hstart hallend
    show ((pre ++ startLine :: tail).foldl extractStep ⟨[], [], [], false⟩).profiler_blocks =
      (pre.foldl extractStep ⟨[], [], [], false⟩).profiler_blocks
    rw [List.foldl_append, List.foldl_cons, foldl_blocks_const tail _ hallend,
      extractStep_blocks, hstart]
    rfl
  · intro lines hne
    obtain ⟨b, bs, hbl⟩ : ∃ b bs, (extract_metrics lines).profiler_blocks = b :: bs := by
      cases h : (extract_metrics lines).profiler_blocks with
      | nil => exact absurd h hne
      | cons b bs => exact ⟨b, bs, rfl⟩
    unfold calculate_summary
    rw [hbl, summaryWithBlocks_pcount_cons]

/-- Witness for C6: a capture with one complete one-field block yields one
block; a complete block with no recognized sub-pattern yields none; an
unterminated block contributes nothing beyond the preceding capture. -/
theorem claim_C6_witness :
    (extract_metrics ([startSentinel, cyclesLine, endSentinel] ++
        startSentinel :: ["garbage".toList])).profiler_blocks =
      (extract_metrics [startSentinel, cyclesLine, endSentinel]).profiler_blocks ∧
    (extract_metrics [startSentinel, "garbage".toList, endSentinel]).profiler_blocks = [] ∧
    (extract_metrics [startSentinel, cyclesLine, endSentinel]).profiler_blocks.length = 1 :=
  ⟨claim_C6.2.2.1 [startSentinel, cyclesLine, endSentinel] ["garbage".toList] startSentinel
      (by decide) (by decide),
   by decide, by decide⟩

/-! ### Exit status of main -/

/-- C7: exit status 1 when no serial channel opens or no lines were
captured; otherwise status 0 when the failure marker is absent and status
2 when it is present, the exit-2 event coming only after the summary
report. -/
theorem claim_C7 (portFound : Bool) (lines : List Line) (noSave : Bool) :
    (portFound = false → mainEvents portFound lines noSave = [.exitWith 1]) ∧
    (portFound = true → lines = [] → mainEvents portFound lines noSave = [.exitWith 1]) ∧
    (portFound = true → lines ≠ [] → (extract_metrics lines).wifi_error = false →
      exitOf (mainEvents portFound lines noSave) = some 0) ∧
    (portFound = true → lines ≠ [] → (extract_metrics lines).wifi_error = true →
      exitOf (mainEvents portFound lines noSave) = some 2 ∧
      ∃ evs, mainEvents portFound lines noSave = evs ++ [.exitWith 2] ∧
        MainEvent.printSummary ∈ evs) := by
  refine ⟨?_, ?_, ?_, ?_⟩
  · intro h; subst h; rfl
  · intro hp hl; subst hp; subst hl; rfl
  · intro hp hl he; subst hp
    obtain ⟨l0, ls0, rfl⟩ : ∃ a as, lines = a :: as := by
      cases lines with
      | nil => exact absurd rfl hl
      | cons a as => exact ⟨a, as, rfl⟩
    cases noSave <;> simp [mainEvents, exitOf, he, List.findSome?_cons]
  · intro hp hl he; subst hp
    obtain ⟨l0, ls0, rfl⟩ : ∃ a as, lines = a :: as := by
      cases lines with
      | nil => exact absurd rfl hl
      | cons a as => exact ⟨a, as, rfl⟩
    cases noSave with
    | false =>
      refine ⟨by simp [mainEvents, exitOf, he, List.findSome?_cons], ?_⟩
      refine ⟨[.printSummary, .saveRaw, .appendLedger], ?_, by simp⟩
      simp [mainEvents, he]
    | true =>
      refine ⟨by simp [mainEvents, exitOf, he, List.findSome?_cons], ?_⟩
      refine ⟨[.printSummary], ?_, by simp⟩
      simp [mainEvents, he]

/-- Witness for C7: a one-line capture containing the failure marker, on
an opened port with persistence on, exits with status 2 after the summary
report. -/
theorem claim_C7_witness :
    exitOf (mainEvents true ["assert failed".toList] false) = some 2 ∧
    ∃ evs, mainEvents true ["assert failed".toList] false = evs ++ [.exitWith 2] ∧
      MainEvent.printSummary ∈ evs :=
  (claim_C7 true ["assert failed".toList] false).2.2.2 rfl (by decide) (by decide)

/-! ### Ledger reporter -/

/-- C8: the ledger bootstrap is idempotent — starting from a nonexistent
file, two invocations produce exactly one fixed header followed by exactly
two data rows — and every statistic the summary lacks is rendered as N/A
in its row cell. -/
theorem claim_C8 (s1 s2 : Summary) (lab1 lab2 dt1 dt2 : String) :
    (append_to_tracking_doc (some (append_to_tracking_doc none s1 lab1 dt1)) s2 lab2 dt2 =
      headerLines ++ [renderRow s1 lab1 dt1, renderRow s2 lab2 dt2]) ∧
    (∀ (s : Summary) (lab dt : String),
      (s.mips_avg = none → (rowCells s lab dt).getD 2 "" = "N/A") ∧
      (s.mips_min = none → (rowCells s lab dt).getD 3 "" = "N/A") ∧
      (s.cycles_avg = none → (rowCells s lab dt).getD 4 "" = "N/A") ∧
      (s.exec_pct_avg = none → (rowCells s lab dt).getD 5 "" = "N/A") ∧
      (s.psram_bw_avg = none → (rowCells s lab dt).getD 6 "" = "N/A") ∧
      (s.bottleneck = none → (rowCells s lab dt).getD 7 "" = "N/A")) := by
  constructor
  · simp [append_to_tracking_doc]
  · intro s lab dt
    refine ⟨?_, ?_, ?_, ?_, ?_, ?_⟩ <;> intro h <;> simp [rowCells, h]

/-- Witness for C8: two invocations on a nonexistent ledger with an empty
summary give the 8 header lines plus two rows, the header's first line appearing once,
and all-absent statistics render as N/A. -/
theorem claim_C8_witness :
    (append_to_tracking_doc
        (some (append_to_tracking_doc none { wifi_status := "Unknown" } "a" "d1"))
        { wifi_status := "Unknown" } "b" "d2" =
      headerLines ++ [renderRow { wifi_status := "Unknown" } "a" "d1",
                      renderRow { wifi_status := "Unknown" } "b" "d2"]) ∧
    (append_to_tracking_doc
        (some (append_to_tracking_doc none { wifi_status := "Unknown" } "a" "d1"))
        { wifi_status := "Unknown" } "b" "d2").count
      "# BasiliskII ESP32-P4 Performance Tracking" = 1 ∧
    (rowCells { wifi_status := "Unknown" } "a" "d1").getD 4 "" = "N/A" :=
  ⟨(claim_C8 { wifi_status := "Unknown" } { wifi_status := "Unknown" } "a" "b" "d1" "d2").1,
   by decide,
   ((claim_C8 { wifi_status := "Unknown" } { wifi_status := "Unknown" } "a" "b" "d1" "d2").2
      { wifi_status := "Unknown" } "a" "d1").2.2.1 rfl⟩

/-! ### Totality of extraction -/

lemma exceptBind_ok {ε α β : Type} (a : α) (f : α → Except ε β) :
    (Except.ok a >>= f) = f a := rfl

lemma exceptPure_eq {ε α : Type} (a : α) : (pure a : Except ε α) = .ok a := rfl

lemma pyIntE_ok (g : Digits) : pyIntE g.val = .ok (digitsToNat g.val) := by
  unfold pyIntE
  rw [if_pos]
  simp [List.isEmpty_iff, g.property.1, g.property.2]

lemma pyFloatE_raw (g : MipsGroup) : pyFloatE g.raw = .ok (pyFloatVal g.raw) := by
  unfold pyFloatE pyFloatVal
  rw [pyFloatParse_raw]
  rfl

lemma stepProfilerLineE_ok (m : BlockMetrics) (l : Line) :
    stepProfilerLineE m l = .ok (stepProfilerLine m l) := by
  unfold stepProfilerLineE stepProfilerLine
  rcases hc : cyclesOf l with _ | ⟨g1, g2, g3, g4, g5⟩ <;>
    rcases hb : bwOf l with _ | ⟨b1, b2, b3⟩ <;>
    rcases ht : tagOf l with _ | t <;>
    simp [hc, hb, ht, pyIntE_ok, exceptBind_ok, exceptPure_eq]

lemma foldlM_ok {σ α : Type} (f : σ → α → σ) (fE : σ → α → Except String σ)
    (hf : ∀ s a, fE s a = .ok (f s a)) :
    ∀ (l : List α) (s : σ), l.foldlM fE s = .ok (l.foldl f s) := by
  intro l
  induction l with
  | nil => intro s; rfl
  | cons a as ih =>
    intro s
    rw [List.foldlM_cons, hf, exceptBind_ok, ih, List.foldl_cons]

lemma parse_profiler_blockE_ok (ls : List Line) :
    parse_profiler_blockE ls = .ok (parse_profiler_block ls) :=
  foldlM_ok stepProfilerLine stepProfilerLineE stepProfilerLineE_ok ls {}

lemma parse_ips_lineE_ok (line : Line) :
    parse_ips_lineE line = .ok (parse_ips_line line) := by
  unfold parse_ips_lineE parse_ips_line
  cases hs : searchO matchMipsAt line with
  | none => rfl
  | some g =>
    dsimp only
    rw [pyFloatE_raw]
    rfl

lemma extractStepE_ok (st : ExtractState) (line : Line) :
    extractStepE st line = .ok (extractStep st line) := by
  unfold extractStepE extractStep
  rw [parse_ips_lineE_ok, exceptBind_ok]
  cases hm : parse_ips_line line <;>
    simp only [hm] <;>
    split_ifs <;>
    simp [parse_profiler_blockE_ok, exceptBind_ok, exceptPure_eq] <;>
    simp_all

/-- C9: extraction is total and never raises — with every fallible
conversion (`int`, `float`) threaded through `Except`, the throughput
extractor, the block extractor and the whole extraction pass return
normally on every input, equal to their plain results. -/
theorem claim_C9 :
    (∀ line : Line, parse_ips_lineE line = .ok (parse_ips_line line)) ∧
    (∀ ls : List Line, parse_profiler_blockE ls = .ok (parse_profiler_block ls)) ∧
    (∀ lines : List Line, extract_metricsE lines = .ok (extract_metrics lines)) := by
  refine ⟨parse_ips_lineE_ok, parse_profiler_blockE_ok, ?_⟩
  intro lines
  unfold extract_metricsE extract_metrics
  rw [foldlM_ok extractStep extractStepE extractStepE_ok, exceptBind_ok]
  rfl
